import Mathlib

/-!
Verification development for the yaguar-sync synchronisation service.

The definitions below are a shallow embedding, translated from the
TypeScript sources:

* src/services/parser/parser_service.ts   (record parser)
* src/services/sftp/sftp_service.ts       (remote file retrieval)
* src/controllers/sync_controller.ts      (orchestrator / run state machine)
* src/services/scheduler/scheduler_service.ts (schedule driver)

External I/O (the SFTP network session, the file system, timers) is made
explicit: results of awaited external calls are passed in as parameters or
environment records, and the mutations a method performs on the module-level
state are modelled as explicit state-passing functions or action lists.
JavaScript character classes are modelled on their ASCII fragment (the
Unicode-only whitespace code points of \s and the line separators U+2028/9
never occur in the inputs considered here).
-/

/-! ## Character classes of the JavaScript regular expressions -/

/-- JavaScript regex class \d (ASCII digits 0-9). -/
def isDigitChar (c : Char) : Bool :=
  '0' ≤ c && c ≤ '9'

/-- JavaScript regex class \s, ASCII fragment: space, tab, newline, carriage
return, vertical tab, form feed. -/
def isSpaceChar (c : Char) : Bool :=
  c == ' ' || c == '\t' || c == '\n' || c == '\r' ||
  c == Char.ofNat 11 || c == Char.ofNat 12

/-- JavaScript regex dot (without the s flag): any character except a line
terminator. -/
def isDotChar (c : Char) : Bool :=
  !(c == '\n' || c == '\r')

/-! ## The extraction regex of ParserService.parseLine

The source matches a line against /^(\d+)\s+(.*?)(?:\s\x7b2,\x7d|\t+|\d)/ and
uses capture group 2 as the raw product name.  The functions below compute
the captured groups following the backtracking semantics of the JavaScript
engine: the leading digit run and the whitespace run are taken greedily, the
lazy group grows from the shortest prefix, and on failure the whitespace
quantifier gives characters back one at a time. -/

/-- Lazy scan for the terminator (?:\s\x7b2,\x7d|\t+|\d): starting at the
current position, return the shortest prefix of dot-matchable characters that
is followed by a position where the terminator matches; none if no such
position exists. The accumulator holds the group-2 characters in reverse. -/
def lazyScan : List Char → List Char → Option (List Char)
  | _, [] => none
  | acc, c :: cs =>
    if (isSpaceChar c && (match cs with
        | c2 :: _ => isSpaceChar c2
        | [] => false))
        || c == '\t' || isDigitChar c then
      some acc.reverse
    else if isDotChar c then
      lazyScan (c :: acc) cs
    else
      none

/-- Backtracking over the length of the \s+ run: the engine first gives the
quantifier the whole whitespace run, and on failure shortens it one character
at a time down to length one.  The argument is the line suffix starting at
the whitespace run; the counter is the whitespace length currently tried. -/
def tryWsLens (full : List Char) : Nat → Option (List Char)
  | 0 => none
  | wlen + 1 =>
    match lazyScan [] (full.drop (wlen + 1)) with
    | some g2 => some g2
    | none => tryWsLens full wlen

/-- Model of line.match with the extraction regex: returns (group1, group2)
on success.  Group 1 is the maximal leading digit run (shortening it would
put a digit where \s+ must match, so backtracking it cannot help); then at
least one whitespace character must follow, and the lazy group is resolved
by tryWsLens / lazyScan. -/
def jsExtract (line : List Char) : Option (String × String) :=
  let g1 := line.takeWhile isDigitChar
  if g1.isEmpty then none
  else
    let rest := line.dropWhile isDigitChar
    let w := rest.takeWhile isSpaceChar
    if w.isEmpty then none
    else
      match tryWsLens rest w.length with
      | some g2 => some (g1.asString, g2.asString)
      | none => none

/-! ## The global digit-run regex

The source computes nums = line.match with the global regex of maximal runs
of \d; the recursion is fuelled by the line length (every step consumes at
least one character), which keeps the definition structurally recursive and
hence evaluable by the kernel. -/

/-- Collect the maximal digit runs of a character list, fuelled. -/
def digitRunsAux : Nat → List Char → List String
  | 0, _ => []
  | _ + 1, [] => []
  | fuel + 1, c :: cs =>
    if isDigitChar c then
      ((c :: cs.takeWhile isDigitChar).asString) ::
        digitRunsAux fuel (cs.dropWhile isDigitChar)
    else
      digitRunsAux fuel cs

/-- Model of line.match with the global digit-run regex (as a list; the
JavaScript null result corresponds to the empty list, and every use in the
source is guarded by a length test that subsumes the null test). -/
def digitRuns (line : List Char) : List String :=
  digitRunsAux line.length line

/-! ## Name normalisation of ParserService.parseLine -/

/-- Strip the maximal trailing asterisk run (the replace of the anchored
asterisk-run regex by the empty string). -/
def stripTrailingStars (cs : List Char) : List Char :=
  (cs.reverse.dropWhile (· == '*')).reverse

/-- Emit a pending asterisk run: runs of three or more asterisks become a
single space, shorter runs are kept verbatim. -/
def emitStars (n : Nat) (rest : List Char) : List Char :=
  if 3 ≤ n then ' ' :: rest else List.replicate n '*' ++ rest

/-- Global replace of asterisk runs of length at least three by one space,
tracking the length of the pending asterisk run. -/
def collapseStarsAux : Nat → List Char → List Char
  | pending, [] => emitStars pending []
  | pending, c :: cs =>
    if c == '*' then collapseStarsAux (pending + 1) cs
    else emitStars pending (c :: collapseStarsAux 0 cs)

/-- Global replace of asterisk runs of length at least three by one space. -/
def collapseStars (cs : List Char) : List Char :=
  collapseStarsAux 0 cs

/-- String.prototype.trim: remove leading and trailing whitespace. -/
def jsTrim (cs : List Char) : List Char :=
  ((cs.dropWhile isSpaceChar).reverse.dropWhile isSpaceChar).reverse

/-- Global replace of whitespace runs by a single space; the flag records
whether the previous character belonged to a whitespace run. -/
def collapseSpacesAux : Bool → List Char → List Char
  | _, [] => []
  | inRun, c :: cs =>
    if isSpaceChar c then
      if inRun then collapseSpacesAux true cs
      else ' ' :: collapseSpacesAux true cs
    else c :: collapseSpacesAux false cs

/-- Name cleaning of parseLine: strip trailing asterisks, collapse asterisk
runs of three or more to a space, trim, and normalise whitespace runs to a
single space, in source order. -/
def cleanName (s : String) : String :=
  (collapseSpacesAux false (jsTrim (collapseStars (stripTrailingStars s.data)))).asString

/-! ## ParserService.parseLine and validateProduct -/

/-- The ParsedProduct record of src/types (all fields are strings in the
source). -/
structure ParsedProduct where
  sku : String
  name : String
  price : String
  stock : String
  category : String
deriving DecidableEq, Repr

/-- JavaScript indexing with a default: l at i, or the default when the
entry is absent or the empty string (the falsy test of the source's
logical-or). -/
def jsIndexOr (l : List String) (i : Nat) (d : String) : String :=
  match l.get? i with
  | some s => if s.isEmpty then d else s
  | none => d

/-- ParserService.parseLine: extract the leading identifier and the raw name
with the extraction regex, collect all digit runs, reject when the match
fails or fewer than two digit runs exist, clean the name when requested, map
the digit runs positionally (index 1 is stock, index 2 or the default "0" is
price, the last run is category), and reject empty or one-character names. -/
def parseLineM (line : String) (cleanNames : Bool) : Option ParsedProduct :=
  match jsExtract line.data with
  | none => none
  | some (_, rawName) =>
    let nums := digitRuns line.data
    if nums.length < 2 then none
    else
      let sku := jsIndexOr nums 0 ""
      if rawName.isEmpty then none
      else
        let nm := if cleanNames then cleanName rawName else rawName
        let stock := jsIndexOr nums 1 "0"
        let price := jsIndexOr nums 2 "0"
        let category := jsIndexOr nums (nums.length - 1) "0"
        if nm.isEmpty || nm.length < 2 then none
        else some { sku := sku, name := nm, price := price, stock := stock, category := category }

/-- Exponent suffix of a JavaScript decimal numeric literal. -/
def jsExpSuffixOk : List Char → Bool
  | [] => true
  | e :: r =>
    (e == 'e' || e == 'E') &&
      (let r' := match r with
        | '+' :: t => t
        | '-' :: t => t
        | t => t
      !r'.isEmpty && r'.all isDigitChar)

/-- JavaScript decimal numeric literal: optional sign, digits with an
optional fractional part (at least one digit overall), optional exponent.
The hexadecimal, octal, binary and Infinity forms of Number are omitted;
the strings reaching this test in the program are digit runs. -/
def jsDecimalLit (cs : List Char) : Bool :=
  let cs1 := match cs with
    | '+' :: r => r
    | '-' :: r => r
    | r => r
  let ip := cs1.takeWhile isDigitChar
  let r1 := cs1.dropWhile isDigitChar
  match r1 with
  | [] => !ip.isEmpty
  | '.' :: r2 =>
    let fp := r2.takeWhile isDigitChar
    let r3 := r2.dropWhile isDigitChar
    (!ip.isEmpty || !fp.isEmpty) && jsExpSuffixOk r3
  | _ => !ip.isEmpty && jsExpSuffixOk r1

/-- Model of the source's non-NaN test: Number of the string is not NaN.
Number trims whitespace and maps the empty string to zero. -/
def jsNumberNotNaN (s : String) : Bool :=
  let t := jsTrim s.data
  t.isEmpty || jsDecimalLit t

/-- ParserService.validateProduct: sku and name non-empty, sku all digits,
price and stock numeric, name at least two characters. -/
def validateProduct (p : ParsedProduct) : Bool :=
  if p.sku.isEmpty || p.name.isEmpty then false
  else if !(!p.sku.isEmpty && p.sku.data.all isDigitChar) then false
  else if !jsNumberNotNaN p.price || !jsNumberNotNaN p.stock then false
  else if p.name.length < 2 then false
  else true

/-! ## The line loop of ParserService.parseFile -/

/-- Line splitting of parseFile: split on carriage-return-newline or bare
newline (a lone carriage return is not a separator). -/
def splitLinesAux : List Char → List Char → List String
  | acc, [] => [acc.reverse.asString]
  | acc, '\r' :: '\n' :: cs => acc.reverse.asString :: splitLinesAux [] cs
  | acc, '\n' :: cs => acc.reverse.asString :: splitLinesAux [] cs
  | acc, c :: cs => splitLinesAux (c :: acc) cs

/-- Split a text into lines as the source's split does. -/
def splitLines (text : String) : List String :=
  splitLinesAux [] text.data

/-- Accumulator of the parseFile loop: the products collected so far and the
processed and skipped line counters. -/
structure ParseAcc where
  products : List ParsedProduct
  processedLines : Nat
  skippedLines : Nat
deriving DecidableEq, Repr

/-- One iteration of the parseFile loop: a line whose parseLine result is
null is counted as skipped; a parsed product failing the validation gate
(when enabled) is counted as skipped; otherwise the product is appended and
the processed counter incremented.  The loop body never throws (its
operations are total), so the per-line catch of the source is unreachable. -/
def parseStepM (cleanNames validateData : Bool) (acc : ParseAcc) (line : String) : ParseAcc :=
  match parseLineM line cleanNames with
  | some p =>
    if validateData && !validateProduct p then
      { acc with skippedLines := acc.skippedLines + 1 }
    else
      { acc with products := acc.products ++ [p], processedLines := acc.processedLines + 1 }
  | none => { acc with skippedLines := acc.skippedLines + 1 }

/-- Fold of the parseFile loop over a list of lines from the empty
accumulator. -/
def processLines (cleanNames validateData : Bool) (lines : List String) : ParseAcc :=
  lines.foldl (parseStepM cleanNames validateData) ⟨[], 0, 0⟩

/-- The pure core of ParserService.parseFile: split the text into lines,
run the loop, and report the accumulator together with the total line
count. -/
def parseTextM (text : String) (cleanNames validateData : Bool) : ParseAcc × Nat :=
  ((splitLines text).foldl (parseStepM cleanNames validateData) ⟨[], 0, 0⟩,
    (splitLines text).length)

/-- The rejection conditions of parseLine, stated as the claim states them:
the extraction regex fails, or fewer than two digit runs exist, or the raw
name is empty, or the derived name is empty or shorter than two characters
after the requested normalisation. -/
def badLineB (cleanNames : Bool) (line : String) : Bool :=
  match jsExtract line.data with
  | none => true
  | some (_, rawName) =>
    decide ((digitRuns line.data).length < 2) ||
    rawName.isEmpty ||
    (let nm := if cleanNames then cleanName rawName else rawName
     nm.isEmpty || decide (nm.length < 2))

/-! ## SftpService: remote file descriptors and latest-file selection -/

/-- Remote file descriptor as consumed from the SFTP client listing: name,
entry type (the source compares the type against the one-character string of
a regular file), size and modification time. -/
structure RemoteFile where
  name : String
  type : String
  size : Nat
  modifyTime : Nat
deriving DecidableEq, Repr

/-- The filter of downloadLatestFile: keep regular files only. -/
def isRegularFile (f : RemoteFile) : Bool :=
  f.type == "-"

/-- The comparator of downloadLatestFile as an ordering test: the source
sorts with the numeric comparator on modifyTime descending, so a precedes
b exactly when b's modification time is at most a's. -/
def fileTimeLE (a b : RemoteFile) : Bool :=
  decide (b.modifyTime ≤ a.modifyTime)

/-- The latest-file selection of downloadLatestFile: filter to regular
files, sort with the (stable) comparator sort descending by modification
time, and take index 0.  List.mergeSort is a stable sort, as the
Array.prototype.sort of the engine is. -/
def selectLatestFile (files : List RemoteFile) : Option RemoteFile :=
  ((files.filter isRegularFile).mergeSort fileTimeLE).head?

/-- The first element of a list achieving the maximal modification time:
on a tie the earlier element wins.  This is the reference value the head of
the stable descending sort is proved equal to. -/
def firstMaxByTime : List RemoteFile → Option RemoteFile
  | [] => none
  | a :: l =>
    match firstMaxByTime l with
    | none => some a
    | some b => if fileTimeLE a b then some a else some b

/-- The earliest-listed file whose modification time dominates the whole
list: a direct rendering of the listing-order tie-break. -/
def earliestMaxByTime (files : List RemoteFile) : Option RemoteFile :=
  files.find? (fun f => files.all (fun g => g.modifyTime ≤ f.modifyTime))

/-- Strict lexicographic order on character lists by code point (kept
structurally recursive so that the kernel evaluates it). -/
def charListLT : List Char → List Char → Bool
  | [], [] => false
  | [], _ :: _ => true
  | _ :: _, [] => false
  | a :: as, b :: bs =>
    if a.toNat < b.toNat then true
    else if b.toNat < a.toNat then false
    else charListLT as bs

/-- Strict lexicographic order on strings. -/
def nameLT (a b : String) : Bool :=
  charListLT a.data b.data

/-- Prefix test on character lists. -/
def listPrefixM : List Char → List Char → Bool
  | [], _ => true
  | _ :: _, [] => false
  | a :: as, b :: bs => a == b && listPrefixM as bs

/-- Suffix test on strings. -/
def strEndsWithM (s suf : String) : Bool :=
  listPrefixM suf.data.reverse s.data.reverse

/-- Definition following the specification's words for the tie-break rule
of the data model: among the tied files sharing the latest modification
time the one whose name sorts lexicographically last wins.  It is compared
against the selection the source computes. -/
def specLexLastAmongLatest (files : List RemoteFile) : Option RemoteFile :=
  files.foldl
    (fun acc f =>
      match acc with
      | none => some f
      | some g =>
        if g.modifyTime < f.modifyTime then some f
        else if g.modifyTime == f.modifyTime && nameLT g.name f.name then some f
        else some g)
    none

/-- Definition following the specification's words for the C2 selection:
regular files only, latest modification time, lexicographically-last name
on a tie. -/
def specSelectLexLast (files : List RemoteFile) : Option RemoteFile :=
  specLexLastAmongLatest (files.filter isRegularFile)

/-- Modelled from the spec: the configured file pattern test, absent from
the source (the source logs the pattern but never filters with it).  The
configured values are shell globs; the forms reaching this development are
the match-all glob, suffix globs of the star-dot-extension form, and
literal names. -/
def specMatchesPattern (pattern nm : String) : Bool :=
  if pattern == "*.*" then true
  else if listPrefixM ['*', '.'] pattern.data then
    strEndsWithM nm (pattern.data.drop 1).asString
  else nm == pattern

/-- Definition following the specification's words for the C4 selection
algorithm: filter to regular files whose name matches the configured
pattern, sort by modification time descending with the lexicographic
tie-break, select index 0; none plays the NoMatchingFile failure. -/
def specFileSelection (pattern : String) (files : List RemoteFile) : Option RemoteFile :=
  specLexLastAmongLatest
    (files.filter (fun f => isRegularFile f && specMatchesPattern pattern f.name))

/-! ## SftpService: connection state machine

The module-level state of the service is the pair of the client handle and
the connected flag.  The outcomes of the awaited network calls are supplied
by an environment record. -/

/-- Outcomes of the external SFTP calls and their payloads. -/
structure SftpEnv where
  connectOk : Bool
  connectErr : String
  listOk : Bool
  files : List RemoteFile
  listErr : String
  fetchOk : Bool
  fetchedSize : Nat
  fetchErr : String
  elapsedMs : Nat
  endOk : Bool
deriving Repr

/-- The module-level state of SftpService: whether a client object is
referenced and whether the connected flag is set. -/
structure SftpState where
  clientPresent : Bool
  isConnected : Bool
deriving DecidableEq, Repr

/-- Result record of SftpService.connect. -/
structure SFTPConnectionResult where
  success : Bool
  message : String
  error : Option String
deriving DecidableEq, Repr

/-- Result record of the download operations. -/
structure SFTPDownloadResult where
  success : Bool
  fileName : String
  localPath : String
  fileSize : Nat
  downloadTime : Nat
  error : Option String
deriving DecidableEq, Repr

/-- The temp directory path of the configuration (default value). -/
def tempDir : String := "./temp"

/-- Joining of the staging path and the file name (Node path normalisation
is not modelled; no claim inspects the path). -/
def pathJoin (a b : String) : String := a ++ "/" ++ b

/-- SftpService.connect: a fresh client object is assigned before the
network call, so the handle is referenced in both outcomes; the connected
flag records the outcome. -/
def connectM (env : SftpEnv) (s : SftpState) : SFTPConnectionResult × SftpState :=
  let s1 : SftpState := { s with clientPresent := true }
  if env.connectOk then
    (⟨true, "Conexión SFTP establecida exitosamente", none⟩,
      { s1 with isConnected := true })
  else
    (⟨false, "Error al conectar al servidor SFTP", some env.connectErr⟩,
      { s1 with isConnected := false })

/-- SftpService.disconnect: only when a client is referenced and the flag
is set is the session ended, the handle dropped and the flag cleared; when
the awaited end call fails the catch leaves both untouched. -/
def disconnectM (env : SftpEnv) (s : SftpState) : SftpState :=
  if s.clientPresent && s.isConnected then
    if env.endOk then ⟨false, false⟩ else s
  else s

/-- Result record of SftpService.listFiles. -/
structure ListFilesResult where
  success : Bool
  files : List RemoteFile
  error : Option String
deriving DecidableEq, Repr

/-- SftpService.listFiles: requires an active connection, then reports the
listing outcome of the environment. -/
def listFilesM (env : SftpEnv) (s : SftpState) : ListFilesResult :=
  if !(s.clientPresent && s.isConnected) then
    ⟨false, [], some "No hay conexión SFTP activa"⟩
  else if env.listOk then ⟨true, env.files, none⟩
  else ⟨false, [], some env.listErr⟩

/-- SftpService.downloadFile: requires an active connection; on success
reports the staged path and the size, on failure the caught error. -/
def downloadFileM (env : SftpEnv) (s : SftpState) (remoteFileName : String) : SFTPDownloadResult :=
  if !(s.clientPresent && s.isConnected) then
    ⟨false, remoteFileName, "", 0, env.elapsedMs, some "No hay conexión SFTP activa"⟩
  else if env.fetchOk then
    ⟨true, remoteFileName, pathJoin tempDir remoteFileName, env.fetchedSize, env.elapsedMs, none⟩
  else
    ⟨false, remoteFileName, "", 0, env.elapsedMs, some env.fetchErr⟩

/-- The failure result the catch of downloadLatestFile builds. -/
def dlFailResult (msg : String) : SFTPDownloadResult :=
  ⟨false, "", "", 0, 0, some msg⟩

/-- SftpService.downloadLatestFile: list the remote directory; a failed or
empty listing raises the no-files error; an empty filtered selection raises
the no-valid-files error; otherwise the selected file is downloaded. -/
def downloadLatestFileM (env : SftpEnv) (s : SftpState) : SFTPDownloadResult :=
  let lr := listFilesM env s
  if !lr.success || lr.files.isEmpty then
    dlFailResult "No se encontraron archivos en el servidor"
  else
    match selectLatestFile lr.files with
    | none => dlFailResult "No se encontraron archivos válidos"
    | some f => downloadFileM env s f.name

/-- SftpService.downloadLatestFileComplete: connect; on success download the
latest file and disconnect; when the connect result is a failure the raised
error is caught, the disconnect is attempted, and the failure result
returned. -/
def downloadLatestFileCompleteM (env : SftpEnv) (s : SftpState) :
    SFTPDownloadResult × SftpState :=
  let (cr, s1) := connectM env s
  if cr.success then
    let dr := downloadLatestFileM env s1
    let s2 := disconnectM env s1
    (dr, s2)
  else
    let s2 := disconnectM env s1
    (⟨false, "", "", 0, 0, some ((cr.error).getD "Error de conexión")⟩, s2)

/-! ## SyncController: run status, history and the full-sync action trace

The controller owns the module-level currentStatus record and the
syncHistory array.  Every mutation executeFullSync performs on them is
modelled as an explicit action; awaited external calls and timer waits
appear as actions without a state effect, so that the state at every point
of a run is the fold of a trace prefix. -/

/-- The status enumeration of src/types. -/
inductive SyncStatusEnum where
  | IDLE
  | CONNECTING
  | DOWNLOADING
  | PARSING
  | GENERATING
  | COMPLETED
  | ERROR
deriving DecidableEq, Repr

/-- The mutable currentStatus record of the controller (nextSync is only
ever written into response copies and stays in the record untouched). -/
structure SyncStatus where
  status : SyncStatusEnum
  message : String
  lastSync : Option Nat
  nextSync : Option Nat
deriving DecidableEq, Repr

/-- The SyncResult history record. -/
structure SyncResult where
  success : Bool
  timestamp : Nat
  recordsProcessed : Nat
  fileSize : Nat
  duration : Nat
  error : Option String
deriving DecidableEq, Repr

/-- The controller's module-level state: the status record and the run
history. -/
structure CtrlState where
  cur : SyncStatus
  history : List SyncResult
deriving DecidableEq, Repr

/-- The initial controller state. -/
def ctrlInit : CtrlState :=
  { cur := { status := .IDLE,
             message := "Servicio iniciado, esperando primera sincronización",
             lastSync := none, nextSync := none },
    history := [] }

/-- SyncController.updateStatus: spread the previous record, set status and
message, and refresh lastSync exactly when the new status is the completed
one. -/
def updateStatusM (now : Nat) (s : SyncStatus) (st : SyncStatusEnum) (msg : String) : SyncStatus :=
  { status := st, message := msg,
    lastSync := if st == .COMPLETED then some now else s.lastSync,
    nextSync := s.nextSync }

/-- One primitive effect of a run on the controller state.  ioStep marks an
awaited external call, delayMs a timer wait; neither touches the state. -/
inductive CtrlAction where
  | update (st : SyncStatusEnum) (msg : String)
  | push (r : SyncResult)
  | trim100
  | ioStep
  | delayMs (n : Nat)
deriving DecidableEq, Repr

/-- Apply one action: update rewrites the status record, push appends to the
history, trim100 is the keep-the-last-100 step of the success path. -/
def applyCtrlAction (now : Nat) (s : CtrlState) : CtrlAction → CtrlState
  | .update st msg => { s with cur := updateStatusM now s.cur st msg }
  | .push r => { s with history := s.history ++ [r] }
  | .trim100 =>
    { s with history := if 100 < s.history.length then
        s.history.drop (s.history.length - 100) else s.history }
  | .ioStep => s
  | .delayMs _ => s

/-- Fold a trace of actions over the controller state. -/
def applyCtrlActions (now : Nat) (acts : List CtrlAction) (s : CtrlState) : CtrlState :=
  acts.foldl (applyCtrlAction now) s

/-- Grace delay of the success path before the return to idle. -/
def successGraceDelayMs : Nat := 5000

/-- Grace delay of the failure path before the return to idle. -/
def errorGraceDelayMs : Nat := 10000

/-- Result record of the parser as the controller consumes it. -/
structure ParserResultR where
  success : Bool
  productsCount : Nat
  duration : Nat
  outputPath : String
  error : Option String
deriving DecidableEq, Repr

/-- JavaScript template interpolation of a possibly-undefined string. -/
def jsShow (o : Option String) : String :=
  o.getD "undefined"

/-- Rounded kilobyte size of the success record (Math.round of the size
over 1024, halves rounding up). -/
def jsRoundKB (n : Nat) : Nat := (n + 512) / 1024

/-- The failed SyncResult the catch of executeFullSync appends, for a
download failure or, when the download succeeded, a parser failure. -/
def runFailureRecord (dl : SFTPDownloadResult) (pr : ParserResultR) (now dur : Nat) : SyncResult :=
  { success := false, timestamp := now, recordsProcessed := 0, fileSize := 0,
    duration := dur,
    error := some (if dl.success then "Error en parsing: " ++ jsShow pr.error
                   else "Error en descarga: " ++ jsShow dl.error) }

/-- The trailing actions of the catch of executeFullSync: the error status
with the failure detail, the failed record (with no trimming step), the
longer grace delay, and the return to idle. -/
def errorTailActions (dl : SFTPDownloadResult) (pr : ParserResultR) (now dur : Nat) : List CtrlAction :=
  [ .update .ERROR ("Error en sincronización: " ++
      (if dl.success then "Error en parsing: " ++ jsShow pr.error
       else "Error en descarga: " ++ jsShow dl.error)),
    .push (runFailureRecord dl pr now dur),
    .delayMs errorGraceDelayMs,
    .update .IDLE "Esperando próxima sincronización (error recuperado)" ]

/-- The successful SyncResult of executeFullSync. -/
def runSuccessRecord (dl : SFTPDownloadResult) (pr : ParserResultR) (now dur : Nat) : SyncResult :=
  { success := true, timestamp := now, recordsProcessed := pr.productsCount,
    fileSize := jsRoundKB dl.fileSize, duration := dur, error := none }

/-- The trailing actions of the success path of executeFullSync: the
placeholder generation phase with its awaited wait, the completed status,
the record append followed by the keep-the-last-100 trim, the short grace
delay, and the return to idle. -/
def successTailActions (dl : SFTPDownloadResult) (pr : ParserResultR) (now dur : Nat) : List CtrlAction :=
  [ .update .GENERATING "Preparando datos para WooCommerce...",
    .delayMs 1000,
    .update .COMPLETED ("Sincronización completada: " ++
      toString pr.productsCount ++ " productos procesados"),
    .push (runSuccessRecord dl pr now dur),
    .trim100,
    .delayMs successGraceDelayMs,
    .update .IDLE "Esperando próxima sincronización" ]

/-- The full action trace of SyncController.executeFullSync, given the
results of the awaited download and parse calls: the connecting and
downloading statuses are set before the download is awaited; a failed
download jumps to the catch; otherwise the parsing status is set, the parse
awaited, and a failed parse jumps to the catch; otherwise the success tail
runs. -/
def executeFullSyncActions (dl : SFTPDownloadResult) (pr : ParserResultR) (now dur : Nat) : List CtrlAction :=
  .update .CONNECTING "Conectando al servidor SFTP..." ::
  .update .DOWNLOADING "Descargando archivo más reciente desde SFTP..." ::
  .ioStep ::
  (if dl.success then
    .update .PARSING ("Parseando archivo: " ++ dl.fileName ++ "...") ::
    .ioStep ::
    (if pr.success then successTailActions dl pr now dur
     else errorTailActions dl pr now dur)
   else errorTailActions dl pr now dur)

/-- The controller-state effects of the scheduler's triggerAutomaticSync:
the scheduled pipeline downloads, validates, parses and cleans up through
the services, but contains no write to the controller's currentStatus and
no append to its history, so its controller-action trace is empty. -/
def scheduledRunCtrlActions (_dl : SFTPDownloadResult) (_pr : ParserResultR) : List CtrlAction :=
  []

/-- Outcome of a trigger entry point. -/
inductive TriggerOutcome where
  | started
  | rejected (current : SyncStatusEnum)
deriving DecidableEq, Repr

/-- The single-flight guard of SyncController.triggerSync: a non-idle
status is answered with the conflict response carrying the current status
and nothing is mutated; an idle status accepts the call (the run itself is
then executed in the background). -/
def triggerSyncCall (s : CtrlState) : TriggerOutcome × CtrlState :=
  if s.cur.status == .IDLE then (.started, s)
  else (.rejected s.cur.status, s)

/-- Iterated trigger calls, collecting the outcomes. -/
def triggerSyncCalls : Nat → CtrlState → List TriggerOutcome × CtrlState
  | 0, s => ([], s)
  | n + 1, s =>
    ((triggerSyncCall s).1 :: (triggerSyncCalls n (triggerSyncCall s).2).1,
      (triggerSyncCalls n (triggerSyncCall s).2).2)

/-- The guard of SchedulerService.executeSyncTask: a non-idle controller
status makes the firing log and return without running; an idle status runs
the scheduled pipeline. -/
def executeSyncTaskGuard (s : CtrlState) : TriggerOutcome :=
  if s.cur.status == .IDLE then .started
  else .rejected s.cur.status

/-! ## SchedulerService: cron task state and reschedule -/

/-- A node-cron scheduled task as the service holds it: the expression and
timezone it was created with and whether it has been started. -/
structure CronTask where
  expression : String
  timezone : String
  started : Bool
deriving DecidableEq, Repr

/-- The module-level state of SchedulerService together with the pieces of
the mutable configuration it reads and writes. -/
structure SchedState where
  syncTask : Option CronTask
  isRunning : Bool
  cronSchedule : String
  timezone : String
deriving DecidableEq, Repr

/-- SchedulerService.stop: without a task or when already stopped, a warned
no-op; otherwise the task is stopped and the running flag cleared. -/
def schedStop (s : SchedState) : SchedState :=
  match s.syncTask with
  | none => s
  | some t =>
    if !s.isRunning then s
    else { s with syncTask := some { t with started := false }, isRunning := false }

/-- SchedulerService.destroy: when a task exists it is stopped and dropped
and the running flag cleared. -/
def schedDestroy (s : SchedState) : SchedState :=
  match s.syncTask with
  | none => s
  | some _ => { s with syncTask := none, isRunning := false }

/-- SchedulerService.initialize: validate the configured expression, then
create the (not yet started) task from the configured expression and
timezone. -/
def schedInitialize (validate : String → Bool) (s : SchedState) :
    Except String SchedState :=
  if !validate s.cronSchedule then
    .error ("Expresión cron inválida: " ++ s.cronSchedule)
  else
    .ok { s with syncTask := some ⟨s.cronSchedule, s.timezone, false⟩ }

/-- SchedulerService.start: without a task an error is raised; when already
running a warned no-op; otherwise the task is started and the flag set. -/
def schedStart (s : SchedState) : Except String SchedState :=
  match s.syncTask with
  | none => .error "Scheduler no ha sido inicializado"
  | some t =>
    if s.isRunning then .ok s
    else .ok { s with syncTask := some { t with started := true }, isRunning := true }

/-- SchedulerService.reschedule: validate the new expression first — an
invalid expression raises before any mutation; otherwise stop and destroy
the current task, overwrite the configured expression, re-initialize, and
restart when the driver had been running.  The result pairs the raised
error, when any, with the state the module is left in. -/
def schedReschedule (validate : String → Bool) (newSchedule : String) (s : SchedState) :
    Option String × SchedState :=
  if !validate newSchedule then
    (some ("Expresión cron inválida: " ++ newSchedule), s)
  else
    let wasRunning := s.isRunning
    let s1 := schedStop s
    let s2 := schedDestroy s1
    let s3 := { s2 with cronSchedule := newSchedule }
    match schedInitialize validate s3 with
    | .error e => (some e, s3)
    | .ok s4 =>
      if wasRunning then
        match schedStart s4 with
        | .error e => (some e, s4)
        | .ok s5 => (none, s5)
      else (none, s4)

/-! ## Concrete inputs used by the theorems below -/

/-- The example line of the specification's parse property. -/
def exampleLine : String := "1001  Widget Pro***   5   19.99   7"

/-- The record the claim expects the example line to parse to. -/
def claimedExampleProduct : ParsedProduct :=
  { sku := "1001", name := "Widget Pro", price := "19.99", stock := "5", category := "7" }

/-- The record the source parses the example line to. -/
def actualExampleProduct : ParsedProduct :=
  { sku := "1001", name := "Widget Pro", price := "19", stock := "5", category := "7" }

/-- A line offering exactly one numeric token after the leading
identifier. -/
def singleTokenLine : String := "12  ab  3"

/-- Listing with two tied regular files, the lexicographically smaller name
listed first. -/
def tieFiles : List RemoteFile :=
  [⟨"a.sql", "-", 1, 5⟩, ⟨"b.sql", "-", 1, 5⟩]

/-- The specification's example listing: modification times t, t, t-1 with
names b, a, c. -/
def specExampleFiles : List RemoteFile :=
  [⟨"b.sql", "-", 10, 100⟩, ⟨"a.sql", "-", 10, 100⟩, ⟨"c.sql", "-", 10, 99⟩]

/-- A listing holding a single regular file whose name does not match the
configured pattern of the environment file. -/
def nonMatchingFiles : List RemoteFile := [⟨"x.txt", "-", 1, 5⟩]

/-- Environment of a failed connect attempt (a later end call would
succeed). -/
def envConnectFail : SftpEnv :=
  { connectOk := false, connectErr := "connect ETIMEDOUT", listOk := true,
    files := [], listErr := "", fetchOk := true, fetchedSize := 0,
    fetchErr := "", elapsedMs := 0, endOk := true }

/-- Environment of a connected session listing the non-matching file. -/
def envListed : SftpEnv :=
  { connectOk := true, connectErr := "", listOk := true,
    files := nonMatchingFiles, listErr := "", fetchOk := true,
    fetchedSize := 7, fetchErr := "", elapsedMs := 3, endOk := true }

/-- A connected SFTP state. -/
def sftpConnected : SftpState := ⟨true, true⟩

/-- The initial SFTP state: no client, not connected. -/
def sftpInit : SftpState := ⟨false, false⟩

/-- A failed download result, as the download phase reports it. -/
def dlFailEx : SFTPDownloadResult :=
  ⟨false, "", "", 0, 0, some "Timeout al conectar"⟩

/-- A successful download result. -/
def dlOkEx : SFTPDownloadResult :=
  ⟨true, "db_data.sql", "./temp/db_data.sql", 2048, 3, none⟩

/-- A successful parser result. -/
def prOkEx : ParserResultR := ⟨true, 42, 5, "out.json", none⟩

/-- A failed parser result. -/
def prFailEx : ParserResultR := ⟨false, 0, 5, "", some "Archivo no encontrado"⟩

/-- One failed manual run started from the given state: the run is entered
through the single-flight guard of triggerSync and, when accepted, executes
the failing full-sync trace. -/
def failedManualRun (s : CtrlState) : CtrlState :=
  match (triggerSyncCall s).1 with
  | .started => applyCtrlActions 0 (executeFullSyncActions dlFailEx prOkEx 0 0) s
  | .rejected _ => s

/-- Iterated failed manual runs. -/
def iterFailedRuns : Nat → CtrlState → CtrlState
  | 0, s => s
  | n + 1, s => iterFailedRuns n (failedManualRun s)

/-- A controller state in the connecting phase of an active manual run. -/
def ctrlBusy : CtrlState :=
  { cur := { status := .CONNECTING, message := "Conectando al servidor SFTP...",
             lastSync := none, nextSync := none },
    history := [] }

/-! ## Properties of the stable latest-file selection

List.mergeSort is stable, as the engine's sort is; the head of the stable
descending sort is the earliest-listed element of maximal modification
time.  The lemmas below establish this characterisation of the source's
selection. -/

theorem fileTimeLE_trans : ∀ (a b c : RemoteFile),
    fileTimeLE a b → fileTimeLE b c → fileTimeLE a c := by
  intro a b c h1 h2
  simp only [fileTimeLE, decide_eq_true_eq] at *
  omega

theorem fileTimeLE_total : ∀ (a b : RemoteFile),
    fileTimeLE a b || fileTimeLE b a := by
  intro a b
  simp only [fileTimeLE, Bool.or_eq_true, decide_eq_true_eq]
  omega

theorem head_mergeSort_firstMax (l : List RemoteFile) :
    (l.mergeSort fileTimeLE).head? = firstMaxByTime l := by
  induction l with
  | nil => simp [firstMaxByTime]
  | cons a l ih =>
    obtain ⟨l₁, l₂, h₁, h₂, h₃⟩ := List.mergeSort_cons fileTimeLE_trans fileTimeLE_total a l
    cases l₁ with
    | nil =>
      simp only [List.nil_append] at h₁ h₂
      rw [h₁]
      rw [h₂] at ih
      cases hfm : firstMaxByTime l with
      | none => simp [firstMaxByTime, hfm]
      | some b =>
        rw [hfm] at ih
        have hs := List.sorted_mergeSort fileTimeLE_trans fileTimeLE_total (a :: l)
        rw [h₁] at hs
        cases l₂ with
        | nil => simp at ih
        | cons c l₂' =>
          have hcb : c = b := by simpa using ih
          subst hcb
          have hab : fileTimeLE a c := (List.pairwise_cons.mp hs).1 c (by simp)
          simp [firstMaxByTime, hfm, hab]
    | cons c l₁' =>
      rw [h₁]
      rw [h₂] at ih
      simp only [List.cons_append, List.head?_cons, Option.some.injEq] at ih ⊢
      have hfm : firstMaxByTime l = some c := ih.symm
      have hac := h₃ c (by simp)
      simp only [Bool.not_eq_true'] at hac
      simp [firstMaxByTime, hfm, hac]

theorem firstMaxByTime_eq_none : ∀ {l : List RemoteFile},
    firstMaxByTime l = none → l = [] := by
  intro l h
  cases l with
  | nil => rfl
  | cons a l =>
    rcases hfm : firstMaxByTime l with _ | c
    · simp [firstMaxByTime, hfm] at h
    · by_cases hle : fileTimeLE a c = true <;> simp [firstMaxByTime, hfm, hle] at h

theorem firstMaxByTime_isMax : ∀ {l : List RemoteFile} {b : RemoteFile},
    firstMaxByTime l = some b → ∀ g ∈ l, g.modifyTime ≤ b.modifyTime := by
  intro l
  induction l with
  | nil => intro b h g hg; simp at hg
  | cons a l ih =>
    intro b h g hg
    rcases hfm : firstMaxByTime l with _ | c
    · have hl : l = [] := firstMaxByTime_eq_none hfm
      subst hl
      simp [firstMaxByTime] at h
      subst h
      simp only [List.mem_singleton] at hg
      subst hg
      exact Nat.le_refl _
    · by_cases hle : fileTimeLE a c = true
      · simp [firstMaxByTime, hfm, hle] at h
        subst h
        have hc : c.modifyTime ≤ a.modifyTime := by
          simpa [fileTimeLE] using hle
        rcases List.mem_cons.mp hg with rfl | hgl
        · exact Nat.le_refl _
        · exact Nat.le_trans (ih hfm g hgl) hc
      · simp [firstMaxByTime, hfm, hle] at h
        subst h
        have hac : a.modifyTime < c.modifyTime := by
          simp only [fileTimeLE, decide_eq_true_eq] at hle
          omega
        rcases List.mem_cons.mp hg with rfl | hgl
        · exact Nat.le_of_lt hac
        · exact ih hfm g hgl

theorem firstMaxByTime_mem : ∀ {l : List RemoteFile} {b : RemoteFile},
    firstMaxByTime l = some b → b ∈ l := by
  intro l
  induction l with
  | nil => intro b h; simp [firstMaxByTime] at h
  | cons a l ih =>
    intro b h
    rcases hfm : firstMaxByTime l with _ | c
    · simp [firstMaxByTime, hfm] at h
      subst h
      exact List.mem_cons_self _ _
    · by_cases hle : fileTimeLE a c = true
      · simp [firstMaxByTime, hfm, hle] at h
        subst h
        exact List.mem_cons_self _ _
      · simp [firstMaxByTime, hfm, hle] at h
        subst h
        exact List.mem_cons_of_mem _ (ih hfm)

theorem find?_agree : ∀ {α : Type} (l : List α) (p q : α → Bool),
    (∀ x ∈ l, p x = q x) → l.find? p = l.find? q := by
  intro α l p q h
  induction l with
  | nil => rfl
  | cons a l ih =>
    have ha := h a (List.mem_cons_self _ _)
    by_cases hp : p a = true
    · rw [List.find?_cons_of_pos _ hp, List.find?_cons_of_pos _ (ha ▸ hp)]
    · have hq : ¬ q a = true := by rw [← ha]; exact hp
      rw [List.find?_cons_of_neg _ hp, List.find?_cons_of_neg _ hq]
      exact ih (fun x hx => h x (List.mem_cons_of_mem _ hx))

theorem firstMaxByTime_eq_earliestMax : ∀ (l : List RemoteFile),
    firstMaxByTime l = earliestMaxByTime l := by
  intro l
  induction l with
  | nil => rfl
  | cons a l ih =>
    rcases hfm : firstMaxByTime l with _ | b
    · have hl : l = [] := firstMaxByTime_eq_none hfm
      subst hl
      simp [firstMaxByTime, earliestMaxByTime, List.find?]
    · by_cases hle : fileTimeLE a b = true
      · have hpa : ((a :: l).all (fun g => decide (g.modifyTime ≤ a.modifyTime))) = true := by
          simp only [List.all_eq_true, List.mem_cons, decide_eq_true_eq]
          rintro g (rfl | hg)
          · exact Nat.le_refl _
          · exact Nat.le_trans (firstMaxByTime_isMax hfm g hg)
              (by simpa [fileTimeLE] using hle)
        have hfind := @List.find?_cons_of_pos RemoteFile
          (fun f => (a :: l).all fun g => decide (g.modifyTime ≤ f.modifyTime)) a l hpa
        simp only [earliestMaxByTime]
        rw [hfind]
        simp [firstMaxByTime, hfm, hle]
      · have hab : a.modifyTime < b.modifyTime := by
          simp only [fileTimeLE, decide_eq_true_eq] at hle
          omega
        have hbl : b ∈ l := firstMaxByTime_mem hfm
        have hpa : ¬ ((a :: l).all (fun g => decide (g.modifyTime ≤ a.modifyTime))) = true := by
          simp only [List.all_eq_true, List.mem_cons, decide_eq_true_eq]
          intro hall
          exact absurd (hall b (Or.inr hbl)) (by omega)
        have hfind := @List.find?_cons_of_neg RemoteFile
          (fun f => (a :: l).all fun g => decide (g.modifyTime ≤ f.modifyTime)) a l hpa
        have hagree : ∀ x ∈ l,
            ((a :: l).all (fun g => decide (g.modifyTime ≤ x.modifyTime))) =
            (l.all (fun g => decide (g.modifyTime ≤ x.modifyTime))) := by
          intro x hx
          by_cases hq : (l.all (fun g => decide (g.modifyTime ≤ x.modifyTime))) = true
          · have hbx : b.modifyTime ≤ x.modifyTime := by
              have := (List.all_eq_true.mp hq) b hbl
              simpa using this
            simp only [List.all_cons, hq, Bool.and_true]
            simp
            omega
          · simp only [Bool.not_eq_true] at hq
            simp [List.all_cons, hq]
        have hE : List.find? (fun f => l.all fun g => decide (g.modifyTime ≤ f.modifyTime)) l
            = some b := by
          have h1 := hfm
          rw [ih] at h1
          simpa [earliestMaxByTime] using h1
        simp only [earliestMaxByTime]
        rw [hfind, find?_agree l _ _ hagree, hE]
        simp [firstMaxByTime, hfm, hle]

theorem selectLatestFile_eq : ∀ (files : List RemoteFile),
    selectLatestFile files = earliestMaxByTime (files.filter isRegularFile) := by
  intro files
  rw [selectLatestFile, head_mergeSort_firstMax, firstMaxByTime_eq_earliestMax]

/-! ## Helper lemmas on the parser loop -/

/-- Any of the rejection conditions forces parseLine to return none. -/
theorem badLine_parseLine_none (cn : Bool) (line : String) :
    badLineB cn line = true → parseLineM line cn = none := by
  intro h
  rcases hj : jsExtract line.data with _ | ⟨g1, raw⟩
  · simp only [parseLineM, hj]
  · simp only [parseLineM, badLineB, hj] at h ⊢
    by_cases h2 : (digitRuns line.data).length < 2
    · simp [h2]
    · by_cases hr : raw.isEmpty = true
      · simp [h2, hr]
      · by_cases hnm : ((if cn = true then cleanName raw else raw).isEmpty
            || decide ((if cn = true then cleanName raw else raw).length < 2)) = true
        · simp [h2, hr, hnm]
        · exfalso
          simp [h2, hr, hnm] at h

/-- The loop step commutes with shifting the skipped counter. -/
theorem parseStepM_skip_shift (cn v : Bool) (acc : ParseAcc) (line : String) :
    parseStepM cn v { acc with skippedLines := acc.skippedLines + 1 } line =
    { parseStepM cn v acc line with
        skippedLines := (parseStepM cn v acc line).skippedLines + 1 } := by
  rw [parseStepM, parseStepM]
  rcases parseLineM line cn with _ | p
  · rfl
  · by_cases hv : (v && !validateProduct p) = true <;> simp [hv]

/-- The whole loop commutes with shifting the skipped counter. -/
theorem foldl_skip_shift (cn v : Bool) (ls : List String) :
    ∀ (acc : ParseAcc),
    ls.foldl (parseStepM cn v) { acc with skippedLines := acc.skippedLines + 1 } =
    { ls.foldl (parseStepM cn v) acc with
        skippedLines := (ls.foldl (parseStepM cn v) acc).skippedLines + 1 } := by
  induction ls with
  | nil => intro acc; rfl
  | cons l ls ih =>
    intro acc
    simp only [List.foldl_cons]
    rw [parseStepM_skip_shift, ih]

/-! ## Helper lemmas on the controller guards and traces -/

/-- A trigger call on a non-idle status is rejected, carries the current
status and leaves the state unchanged. -/
theorem triggerSyncCall_rejected (s : CtrlState) (h : s.cur.status ≠ .IDLE) :
    triggerSyncCall s = (.rejected s.cur.status, s) := by
  rw [triggerSyncCall]
  simp [h]

/-- Any number of trigger calls on a non-idle status are all rejected and
the state is unchanged. -/
theorem triggerSyncCalls_rejected : ∀ (n : Nat) (s : CtrlState), s.cur.status ≠ .IDLE →
    triggerSyncCalls n s = (List.replicate n (.rejected s.cur.status), s) := by
  intro n
  induction n with
  | zero => intro s h; rfl
  | succ n ih =>
    intro s h
    rw [triggerSyncCalls, triggerSyncCall_rejected s h]
    simp only [ih s h, List.replicate_succ]

/-- The scheduled firing guard skips on a non-idle status. -/
theorem executeSyncTaskGuard_rejected (s : CtrlState) (h : s.cur.status ≠ .IDLE) :
    executeSyncTaskGuard s = .rejected s.cur.status := by
  rw [executeSyncTaskGuard]
  simp [h]

/-- At every point strictly inside a manual run — after at least one action
and before the trailing return-to-idle update — the controller status is
not idle, whatever the outcome of the run's external calls. -/
theorem manualRun_midStatus_ne_idle (dl : SFTPDownloadResult) (pr : ParserResultR)
    (now dur : Nat) (s : CtrlState) (k : Nat)
    (hk : k + 1 < (executeFullSyncActions dl pr now dur).length) :
    (applyCtrlActions now ((executeFullSyncActions dl pr now dur).take (k + 1)) s).cur.status
      ≠ .IDLE := by
  cases hdl : dl.success with
  | false =>
    simp only [executeFullSyncActions, errorTailActions, hdl, Bool.false_eq_true, if_false,
      List.length_cons, List.length_nil] at hk ⊢
    have hk6 : k < 6 := by omega
    interval_cases k <;>
      simp [applyCtrlActions, applyCtrlAction, updateStatusM, List.take]
  | true =>
    cases hpr : pr.success with
    | false =>
      simp only [executeFullSyncActions, errorTailActions, hdl, hpr, Bool.false_eq_true,
        if_true, if_false, List.length_cons, List.length_nil] at hk ⊢
      have hk8 : k < 8 := by omega
      interval_cases k <;>
        simp [applyCtrlActions, applyCtrlAction, updateStatusM, List.take]
    | true =>
      simp only [executeFullSyncActions, successTailActions, hdl, hpr, if_true,
        List.length_cons, List.length_nil] at hk ⊢
      have hk11 : k < 11 := by omega
      interval_cases k <;>
        simp [applyCtrlActions, applyCtrlAction, updateStatusM, List.take]

/-- One failed manual run from an idle state returns the status to idle and
grows the history by exactly one record: the failure path pushes without
the keep-the-last-100 trim of the success path. -/
theorem failedManualRun_idle (s : CtrlState) (h : s.cur.status = .IDLE) :
    (failedManualRun s).cur.status = .IDLE ∧
    (failedManualRun s).history.length = s.history.length + 1 := by
  rw [failedManualRun, triggerSyncCall]
  simp only [h, if_true, beq_self_eq_true]
  simp [executeFullSyncActions, errorTailActions, applyCtrlActions, applyCtrlAction,
    updateStatusM, dlFailEx]

/-- Iterating failed manual runs from an idle state keeps the status idle
and grows the history by one record per run, without any bound. -/
theorem iterFailedRuns_spec : ∀ (n : Nat) (s : CtrlState), s.cur.status = .IDLE →
    (iterFailedRuns n s).cur.status = .IDLE ∧
    (iterFailedRuns n s).history.length = s.history.length + n := by
  intro n
  induction n with
  | zero => intro s h; exact ⟨h, rfl⟩
  | succ n ih =>
    intro s h
    rw [iterFailedRuns]
    obtain ⟨h1, h2⟩ := failedManualRun_idle s h
    obtain ⟨h3, h4⟩ := ih _ h1
    rw [h2] at h4
    exact ⟨h3, by omega⟩

/-! ## Claim theorems -/

/-- C1 counterexample: a scheduled firing accepted at idle starts a run
whose pipeline performs no controller-state update at all, so while that
run is in flight the controller status is still idle and a further trigger
call is accepted rather than rejected with the conflict outcome — two runs
may interleave, contradicting the claim that every call issued while a run
is active, except the starter, fails with the already-running outcome. -/
theorem claim1_single_flight_counterexample :
    executeSyncTaskGuard ctrlInit = .started ∧
    scheduledRunCtrlActions dlFailEx prOkEx = [] ∧
    applyCtrlActions 0 (scheduledRunCtrlActions dlFailEx prOkEx) ctrlInit = ctrlInit ∧
    (triggerSyncCall ctrlInit).1 = .started ∧
    (triggerSyncCall ctrlInit).1 ≠ .rejected ctrlInit.cur.status :=
  ⟨rfl, rfl, rfl, rfl, by decide⟩

/-- C1 (amended): every trigger call — manual or scheduled — issued while
the controller status is non-idle fails with the conflict outcome carrying
the current status and performs no state mutation, and whole sequences of
such calls leave the state unchanged; the controller status is non-idle at
every point strictly inside a manual run, so no second run interleaves with
an active manual run.  Scheduled runs, however, perform no controller-state
updates, so they do not arm this guard while they execute. -/
theorem claim1_single_flight_guard_amended :
    (∀ s : CtrlState, s.cur.status ≠ .IDLE →
      triggerSyncCall s = (.rejected s.cur.status, s) ∧
      executeSyncTaskGuard s = .rejected s.cur.status) ∧
    (∀ (n : Nat) (s : CtrlState), s.cur.status ≠ .IDLE →
      triggerSyncCalls n s = (List.replicate n (.rejected s.cur.status), s)) ∧
    (∀ (dl : SFTPDownloadResult) (pr : ParserResultR) (now dur : Nat)
        (s : CtrlState) (k : Nat),
      k + 1 < (executeFullSyncActions dl pr now dur).length →
      (applyCtrlActions now
        ((executeFullSyncActions dl pr now dur).take (k + 1)) s).cur.status ≠ .IDLE) ∧
    (∀ (dl : SFTPDownloadResult) (pr : ParserResultR),
      scheduledRunCtrlActions dl pr = []) :=
  ⟨fun s h => ⟨triggerSyncCall_rejected s h, executeSyncTaskGuard_rejected s h⟩,
   triggerSyncCalls_rejected,
   manualRun_midStatus_ne_idle,
   fun _ _ => rfl⟩

/-- C1 witness: two trigger calls against a state in the connecting phase
are both rejected with the current status and leave the state unchanged. -/
theorem claim1_single_flight_guard_amended_witness :
    ctrlBusy.cur.status ≠ SyncStatusEnum.IDLE ∧
    triggerSyncCalls 2 ctrlBusy =
      (List.replicate 2 (.rejected SyncStatusEnum.CONNECTING), ctrlBusy) :=
  ⟨by decide, claim1_single_flight_guard_amended.2.1 2 ctrlBusy (by decide)⟩

/-- C2 counterexample: for the listing with two tied regular files whose
lexicographically smaller name is listed first, the source selects the
first-listed file, not the lexicographically last one the claim names. -/
theorem claim2_tie_break_counterexample :
    (selectLatestFile tieFiles).map (fun f => f.name) = some "a.sql" ∧
    (specSelectLexLast tieFiles).map (fun f => f.name) = some "b.sql" ∧
    selectLatestFile tieFiles ≠ specSelectLexLast tieFiles := by
  have h := selectLatestFile_eq tieFiles
  refine ⟨?_, by decide, ?_⟩
  · rw [h]; decide
  · rw [h]; decide

/-- C2 (amended): among the regular files sharing the latest modification
time the selection picks the one listed earliest (the stable sort keeps the
listing order on ties); on the specification's example listing with times
t, t, t-1 and names b, a, c the selected file is still b.sql, because it is
listed first among the tied pair. -/
theorem claim2_tie_break_amended :
    (∀ files : List RemoteFile,
      selectLatestFile files = earliestMaxByTime (files.filter isRegularFile)) ∧
    (selectLatestFile specExampleFiles).map (fun f => f.name) = some "b.sql" := by
  refine ⟨selectLatestFile_eq, ?_⟩
  rw [selectLatestFile_eq]
  decide

/-- C3 counterexample: the example line does not parse to the claimed
record with the decimal price preserved; the global digit-run regex splits
the decimal, so the price field holds only the integer part. -/
theorem claim3_example_line_counterexample :
    parseLineM exampleLine true ≠ some claimedExampleProduct ∧
    parseLineM exampleLine true = some actualExampleProduct :=
  ⟨by decide, by decide⟩

/-- C3 (amended): after normalization the example line parses to the record
with sku 1001, name Widget Pro, stock 5, category 7 — but price 19, the
integer part of 19.99, because the digit-run regex splits the decimal into
the tokens 19 and 99; the record passes the validation gate. -/
theorem claim3_example_line_amended :
    parseLineM exampleLine true = some actualExampleProduct ∧
    actualExampleProduct.price = "19" ∧
    actualExampleProduct.stock = "5" ∧
    actualExampleProduct.name = "Widget Pro" ∧
    validateProduct actualExampleProduct = true := by decide

/-- C4 counterexample: the configured file pattern is never applied — for a
listing holding one regular file whose name does not match the configured
pattern, the specification's algorithm yields the no-matching-file outcome
while the source selects that file. -/
theorem claim4_file_selection_counterexample :
    specFileSelection "*.sql" nonMatchingFiles = none ∧
    specMatchesPattern "*.sql" "x.txt" = false ∧
    (selectLatestFile nonMatchingFiles).map (fun f => f.name) = some "x.txt" := by
  have h := selectLatestFile_eq nonMatchingFiles
  refine ⟨by decide, by decide, ?_⟩
  rw [h]; decide

/-- C4 (amended): on a connected session whose listing succeeds and is
non-empty, the download step keeps only the regular files — the configured
name pattern is not consulted — takes the earliest-listed file of maximal
modification time, downloads it, and fails with the no-valid-files error
when no regular file exists. -/
theorem claim4_file_selection_amended :
    ∀ (env : SftpEnv) (s : SftpState),
      s.clientPresent = true → s.isConnected = true →
      env.listOk = true → env.files ≠ [] →
      downloadLatestFileM env s =
        (match earliestMaxByTime (env.files.filter isRegularFile) with
         | none => dlFailResult "No se encontraron archivos válidos"
         | some f => downloadFileM env s f.name) := by
  intro env s h1 h2 h3 h4
  rw [downloadLatestFileM]
  simp only [listFilesM, h1, h2, h3, Bool.and_self, Bool.not_true, if_true, if_false,
    Bool.false_or]
  rw [selectLatestFile_eq]
  simp [h4, List.isEmpty_iff]

/-- C4 witness: the amended selection applied to the connected session
listing the single non-matching regular file. -/
theorem claim4_file_selection_amended_witness :
    sftpConnected.clientPresent = true ∧ sftpConnected.isConnected = true ∧
    envListed.listOk = true ∧ envListed.files ≠ [] ∧
    downloadLatestFileM envListed sftpConnected =
      (match earliestMaxByTime (envListed.files.filter isRegularFile) with
       | none => dlFailResult "No se encontraron archivos válidos"
       | some f => downloadFileM envListed sftpConnected f.name) :=
  ⟨rfl, rfl, rfl, by decide,
   claim4_file_selection_amended envListed sftpConnected rfl rfl rfl (by decide)⟩

/-- C5: the history bound fails on the failure path — the keep-the-last-100
trim runs only after successful completions, so one hundred and one
consecutive failed runs leave one hundred and one records in the history,
exceeding the claimed bound of one hundred. -/
theorem claim5_history_bound_code_bug :
    (iterFailedRuns 101 ctrlInit).history.length = 101 ∧
    100 < (iterFailedRuns 101 ctrlInit).history.length := by
  obtain ⟨h1, h2⟩ := iterFailedRuns_spec 101 ctrlInit rfl
  rw [h2]
  exact ⟨rfl, by omega⟩

/-- C6 counterexample: a scheduled run whose download fails leaves the
controller state untouched — the history receives no failed record and the
status never transitions to the error state, because the scheduled pipeline
performs no controller-state updates. -/
theorem claim6_failed_run_counterexample :
    dlFailEx.success = false ∧
    scheduledRunCtrlActions dlFailEx prOkEx = [] ∧
    (applyCtrlActions 0 (scheduledRunCtrlActions dlFailEx prOkEx) ctrlInit).history = [] ∧
    (applyCtrlActions 0 (scheduledRunCtrlActions dlFailEx prOkEx) ctrlInit).cur.status
      = .IDLE :=
  ⟨rfl, rfl, rfl, rfl⟩

/-- C6 (amended): every manual run that fails in the download or parsing
phase transitions the status to the error state with the failure detail,
appends a failed record to the history, and after the error grace delay of
ten seconds — longer than the five-second post-success delay — returns the
status to idle; scheduled runs log the failure only, with no status
transition and no history record. -/
theorem claim6_failed_run_amended :
    ∀ (dl : SFTPDownloadResult) (pr : ParserResultR) (now dur : Nat) (s : CtrlState),
      dl.success = false ∨ pr.success = false →
      (applyCtrlActions now
          (((executeFullSyncActions dl pr now dur).dropLast).dropLast) s).cur.status
          = .ERROR ∧
      (runFailureRecord dl pr now dur).success = false ∧
      (applyCtrlActions now (executeFullSyncActions dl pr now dur) s).history
          = s.history ++ [runFailureRecord dl pr now dur] ∧
      (applyCtrlActions now (executeFullSyncActions dl pr now dur) s).cur.status = .IDLE ∧
      (executeFullSyncActions dl pr now dur).getLast?
          = some (.update .IDLE "Esperando próxima sincronización (error recuperado)") ∧
      (executeFullSyncActions dl pr now dur).get?
          ((executeFullSyncActions dl pr now dur).length - 2)
          = some (.delayMs errorGraceDelayMs) ∧
      successGraceDelayMs < errorGraceDelayMs ∧
      errorGraceDelayMs = 10000 := by
  intro dl pr now dur s h
  cases hdl : dl.success with
  | false =>
    simp [executeFullSyncActions, errorTailActions, runFailureRecord, hdl,
      applyCtrlActions, applyCtrlAction, updateStatusM, successGraceDelayMs,
      errorGraceDelayMs]
  | true =>
    cases hpr : pr.success with
    | false =>
      simp [executeFullSyncActions, errorTailActions, runFailureRecord, hdl, hpr,
        applyCtrlActions, applyCtrlAction, updateStatusM, successGraceDelayMs,
        errorGraceDelayMs]
    | true =>
      rw [hdl, hpr] at h
      simp at h

/-- C6 witness: a manual run with a failed download, from the initial
state, appends the failed record and returns to idle. -/
theorem claim6_failed_run_amended_witness :
    (dlFailEx.success = false ∨ prOkEx.success = false) ∧
    (applyCtrlActions 0 (executeFullSyncActions dlFailEx prOkEx 0 0) ctrlInit).history
        = ctrlInit.history ++ [runFailureRecord dlFailEx prOkEx 0 0] ∧
    (applyCtrlActions 0 (executeFullSyncActions dlFailEx prOkEx 0 0) ctrlInit).cur.status
        = .IDLE :=
  ⟨Or.inl rfl,
   (claim6_failed_run_amended dlFailEx prOkEx 0 0 ctrlInit (Or.inl rfl)).2.2.1,
   (claim6_failed_run_amended dlFailEx prOkEx 0 0 ctrlInit (Or.inl rfl)).2.2.2.1⟩

/-- C7 counterexample: a line offering only one numeric token after the
leading identifier — fewer than the two trailing tokens the claim requires —
is not rejected: it parses to a record with the price defaulted to zero and
is counted as processed. -/
theorem claim7_rejected_line_counterexample :
    (digitRuns singleTokenLine.data).length = 2 ∧
    parseLineM singleTokenLine true =
      some { sku := "12", name := "ab", price := "0", stock := "3", category := "3" } ∧
    processLines true true [singleTokenLine] =
      { products := [{ sku := "12", name := "ab", price := "0", stock := "3", category := "3" }],
        processedLines := 1, skippedLines := 0 } := by decide

/-- C7 (amended): a line that fails the extraction pattern, or yields fewer
than two numeric tokens in total (the leading identifier counts as the
first, so one trailing token suffices for acceptance), or whose derived
name is empty or shorter than two characters after normalization, produces
no output record and increments the rejected count by one, while the
remaining lines are processed exactly as they would be without it. -/
theorem claim7_rejected_line_amended :
    ∀ (cn v : Bool) (pre post : List String) (line : String),
      badLineB cn line = true →
      (processLines cn v (pre ++ line :: post)).products
          = (processLines cn v (pre ++ post)).products ∧
      (processLines cn v (pre ++ line :: post)).processedLines
          = (processLines cn v (pre ++ post)).processedLines ∧
      (processLines cn v (pre ++ line :: post)).skippedLines
          = (processLines cn v (pre ++ post)).skippedLines + 1 := by
  intro cn v pre post line h
  have hnone := badLine_parseLine_none cn line h
  rw [processLines, processLines, List.foldl_append, List.foldl_append, List.foldl_cons]
  have hstep : parseStepM cn v (pre.foldl (parseStepM cn v) ⟨[], 0, 0⟩) line =
      { pre.foldl (parseStepM cn v) ⟨[], 0, 0⟩ with
        skippedLines := (pre.foldl (parseStepM cn v) ⟨[], 0, 0⟩).skippedLines + 1 } := by
    rw [parseStepM, hnone]
  rw [hstep, foldl_skip_shift]
  exact ⟨rfl, rfl, rfl⟩

/-- C7 witness: a line with no leading digits, inserted between two good
lines, is rejected while the surrounding lines parse unchanged. -/
theorem claim7_rejected_line_amended_witness :
    badLineB true "sin digitos" = true ∧
    (processLines true true ([exampleLine] ++ "sin digitos" :: [singleTokenLine])).products
        = (processLines true true ([exampleLine] ++ [singleTokenLine])).products ∧
    (processLines true true ([exampleLine] ++ "sin digitos" :: [singleTokenLine])).processedLines
        = (processLines true true ([exampleLine] ++ [singleTokenLine])).processedLines ∧
    (processLines true true ([exampleLine] ++ "sin digitos" :: [singleTokenLine])).skippedLines
        = (processLines true true ([exampleLine] ++ [singleTokenLine])).skippedLines + 1 :=
  ⟨by decide,
   (claim7_rejected_line_amended true true [exampleLine] [singleTokenLine]
      "sin digitos" (by decide)).1,
   (claim7_rejected_line_amended true true [exampleLine] [singleTokenLine]
      "sin digitos" (by decide)).2.1,
   (claim7_rejected_line_amended true true [exampleLine] [singleTokenLine]
      "sin digitos" (by decide)).2.2⟩

/-- C8: reschedule validates the new cron expression before any mutation,
so a syntactically invalid expression is answered with the invalid-schedule
error while the configured expression, the armed task and the running flag
all stay exactly as they were. -/
theorem claim8_reschedule_invalid_confirmed :
    ∀ (validate : String → Bool) (expr : String) (s : SchedState),
      validate expr = false →
      schedReschedule validate expr s =
        (some ("Expresión cron inválida: " ++ expr), s) := by
  intro validate expr s h
  rw [schedReschedule]
  simp [h]

/-- C8 witness: rescheduling with a rejected expression leaves a running
driver with its armed task and configured expression unchanged. -/
theorem claim8_reschedule_invalid_confirmed_witness :
    (fun _ : String => false) "not-a-cron" = false ∧
    schedReschedule (fun _ : String => false) "not-a-cron"
        ⟨some ⟨"0 3 * * *", "America/Argentina/Buenos_Aires", true⟩, true,
          "0 3 * * *", "America/Argentina/Buenos_Aires"⟩ =
      (some ("Expresión cron inválida: " ++ "not-a-cron"),
        ⟨some ⟨"0 3 * * *", "America/Argentina/Buenos_Aires", true⟩, true,
          "0 3 * * *", "America/Argentina/Buenos_Aires"⟩) :=
  ⟨rfl, claim8_reschedule_invalid_confirmed _ _ _ rfl⟩

/-- C9: parsing is deterministic and idempotent — the parse of a text is a
pure function of the text and the options, so equal inputs yield identical
product lists and identical line statistics. -/
theorem claim9_parse_deterministic_confirmed :
    ∀ (t1 t2 : String) (cn v : Bool), t1 = t2 →
      (parseTextM t1 cn v).1.products = (parseTextM t2 cn v).1.products ∧
      (parseTextM t1 cn v).1.processedLines = (parseTextM t2 cn v).1.processedLines ∧
      (parseTextM t1 cn v).1.skippedLines = (parseTextM t2 cn v).1.skippedLines ∧
      (parseTextM t1 cn v).2 = (parseTextM t2 cn v).2 := by
  intro t1 t2 cn v h
  subst h
  exact ⟨rfl, rfl, rfl, rfl⟩

/-- C9 witness: the two parses of the example line agree. -/
theorem claim9_parse_deterministic_confirmed_witness :
    exampleLine = exampleLine ∧
    (parseTextM exampleLine true true).1.products
      = (parseTextM exampleLine true true).1.products ∧
    (parseTextM exampleLine true true).2 = (parseTextM exampleLine true true).2 :=
  ⟨rfl, (claim9_parse_deterministic_confirmed exampleLine exampleLine true true rfl).1,
   (claim9_parse_deterministic_confirmed exampleLine exampleLine true true rfl).2.2.2⟩

/-- C10 counterexample: when the connect attempt fails, the combined
operation returns its failure result with the connection flag down, but the
freshly assigned client handle is not released — the disconnect skips its
body because the flag is already false. -/
theorem claim10_disconnect_counterexample :
    (downloadLatestFileCompleteM envConnectFail sftpInit).1.success = false ∧
    (downloadLatestFileCompleteM envConnectFail sftpInit).2.isConnected = false ∧
    (downloadLatestFileCompleteM envConnectFail sftpInit).2.clientPresent = true := by
  decide

/-- C10 (amended): after every return of the combined operation in which
the session's end call succeeds, the connection flag is false; the client
handle is released exactly when the connect succeeded — after a failed
connect the stale client reference remains held. -/
theorem claim10_disconnect_amended :
    ∀ (env : SftpEnv) (s : SftpState), env.endOk = true →
      (downloadLatestFileCompleteM env s).2.isConnected = false ∧
      (downloadLatestFileCompleteM env s).2.clientPresent = !env.connectOk := by
  intro env s h
  cases hc : env.connectOk with
  | false => simp [downloadLatestFileCompleteM, connectM, disconnectM, hc, h]
  | true => simp [downloadLatestFileCompleteM, connectM, disconnectM, hc, h]

/-- C10 witness: the amended statement at the failed-connect environment. -/
theorem claim10_disconnect_amended_witness :
    envConnectFail.endOk = true ∧
    (downloadLatestFileCompleteM envConnectFail sftpInit).2.isConnected = false ∧
    (downloadLatestFileCompleteM envConnectFail sftpInit).2.clientPresent
      = !envConnectFail.connectOk :=
  ⟨rfl, (claim10_disconnect_amended envConnectFail sftpInit rfl).1,
   (claim10_disconnect_amended envConnectFail sftpInit rfl).2⟩
